import Mathlib

/-!
# npm_plugin: the report pipeline of `main.js`

A shallow embedding of `runAudit`, `processResult` and `main` of `main.js`, and the
properties of the report pipeline proved about them.

* The modules `common.js`, `vcs.js`, `file.js` and `transport.js` are required by
  `main.js` but are not part of the sources at hand.  Every function of theirs that
  `main.js` calls is a field of `Env`: a function of its arguments and of the state of
  the outside world (file system, clock, network), returning its result and the next
  state.  Nothing is assumed about them beyond that they return and that they leave
  the objects they are handed as they are (`Files.walkDir`, whose purpose is to fill
  the object it is handed, returns the filled object).
* `Common.systemSync` returns the text a command printed: its result is handed to
  `JSON.parse` and stored as the machine name, so `data.includes(...)` in `runAudit`
  is `String.prototype.includes`, a substring test.
* JavaScript values are `JVal`; an object is its list of properties in insertion order.
* A run carries the outside world and the trace of every external call made so far
  (arguments and result), in program order.  Statements of the form "X is never
  called" are statements about that trace.
* `JSON.parse` throws on malformed text: it is `Env.jsonParse : String → Option JVal`,
  and a run ends in `Except.error` when it does.  `JSON.stringify` is any function
  from values to text.
-/

namespace NpmPlugin

/-! ## Values -/

/-- JavaScript values that occur in the bundle.  A number is an integer: the numbers
the code itself creates are a day of the month and the exit status `0`. -/
inductive JVal where
  | null
  | bool (b : Bool)
  | num (n : Int)
  | str (s : String)
  | arr (xs : List JVal)
  | obj (props : List (String × JVal))
  deriving Inhabited

/-- Property assignment `o[k] = v` on a property list: an existing property keeps its
position and takes the new value, a new one is appended. -/
def assign : List (String × JVal) → String → JVal → List (String × JVal)
  | [], k, v => [(k, v)]
  | (k', v') :: rest, k, v =>
    if k' = k then (k, v) :: rest else (k', v') :: assign rest k v

/-- Reading `o[k]`; `none` is JavaScript's `undefined`. -/
def JVal.get : JVal → String → Option JVal
  | .obj props, k => props.lookup k
  | _, _ => none

/-- Writing `o[k] = v` when `o` is an object. -/
def JVal.set : JVal → String → JVal → JVal
  | .obj props, k, v => .obj (assign props k v)
  | o, _, _ => o

/-- The own property names of a value, in insertion order (`Object.keys`). -/
def JVal.keys : JVal → List String
  | .obj props => props.map Prod.fst
  | _ => []

/-! ## Strings -/

/-- `hay.includes(needle)` on character lists: `needle` occurs in `hay` as a
contiguous run. -/
def includesChars (needle : List Char) : List Char → Bool
  | [] => needle.isEmpty
  | c :: cs => needle.isPrefixOf (c :: cs) || includesChars needle cs

/-- `String.prototype.includes`. -/
def includes (hay needle : String) : Bool :=
  includesChars needle.data hay.data

/-- `String.prototype.split` with a one-character separator, on character lists. -/
def splitChars (sep : Char) : List Char → List (List Char)
  | [] => [[]]
  | c :: cs =>
    if c = sep then [] :: splitChars sep cs
    else
      match splitChars sep cs with
      | [] => [[c]]
      | p :: ps => (c :: p) :: ps

/-- `s.split(sep)`. -/
def split (s : String) (sep : Char) : List String :=
  (splitChars sep s.data).map String.mk

/-- The text that `+` concatenates for `list[i]`: the element, or `undefined` when the
index is past the end. -/
def elemText (l : List String) (i : Nat) : String :=
  match l.get? i with
  | some s => s
  | none => "undefined"

/-- The number written by a string of decimal digits (`0` for the empty string, as
`Number("")` is). -/
def decimalValue (cs : List Char) : Nat :=
  cs.foldl (fun n c => 10 * n + (c.toNat - 48)) 0

/-! ## Events, environment, runs -/

/-- One external call of a run, with its arguments and its result. -/
inductive Event where
  | log (msg : String)
  | systemSync (cmd : String) (cwd : Option String) (out : String)
  | getCWD (out : String)
  | correctRoot (path out : String)
  | get_npm (root out : String)
  | getUTCDate (out : Int)
  | walkDir (root : String) (tree : JVal)
  | isGit (tree : JVal) (out : Bool)
  | getHash (root : String) (out : JVal)
  | getProject (root : String) (out : JVal)
  | getBlame (root : String) (out : JVal)
  | getURL (root : String) (out : JVal)
  | loadPackage (path : String) (out : JVal)
  | getDependencyList (pkg out : JVal)
  | parseBlm (blame deps out : JVal)
  | sendResult (token : String) (bundle : JVal) (host port : Option String)
  | saveResult (path : String) (bundle : JVal)

/-- The command line as `argparse` returns it: each option is a string or `null`. -/
structure Args where
  token : Option String
  output_path : Option String
  port : Option String
  host : Option String

/-- The collaborators of `main.js`, each a function of its arguments and the world. -/
structure Env (W : Type) where
  /-- `Common.systemSync(cmd, cwd)`: the text the command printed. -/
  systemSync : String → Option String → W → String × W
  /-- `Common.get_npm(root)`: the npm version text. -/
  get_npm : String → W → String × W
  /-- `Files.getCWD()`. -/
  getCWD : W → String × W
  /-- `Files.correctRoot(path)`. -/
  correctRoot : String → W → String × W
  /-- `Files.walkDir(root, tree)`: the tree object after the walk filled it. -/
  walkDir : String → JVal → W → JVal × W
  /-- `Files.isGit(tree)`, as the truth value `if` sees. -/
  isGit : JVal → W → Bool × W
  /-- `Vcs.getHash(root)`. -/
  getHash : String → W → JVal × W
  /-- `Vcs.getProject(root)`. -/
  getProject : String → W → JVal × W
  /-- `Vcs.getBlame(root)`. -/
  getBlame : String → W → JVal × W
  /-- `Vcs.getURL(root)`. -/
  getURL : String → W → JVal × W
  /-- `Files.loadPackage(path)`. -/
  loadPackage : String → W → JVal × W
  /-- `Files.getDependencyList(pkg)`. -/
  getDependencyList : JVal → W → JVal × W
  /-- `Vcs.parseBlm(blame, deps)`. -/
  parseBlm : JVal → JVal → W → JVal × W
  /-- `Transport.sendResult(token, bundle, host, port)`; its result is not used. -/
  sendResult : String → JVal → Option String → Option String → W → W
  /-- `Files.saveResult(path, bundle)`; its result is not used. -/
  saveResult : String → JVal → W → W
  /-- `new Date().getUTCDate()`. -/
  getUTCDate : W → Int × W
  /-- `JSON.parse(text)`; `none` when it throws. -/
  jsonParse : String → Option JVal
  /-- `JSON.stringify(value)`. -/
  stringify : JVal → String
  /-- `text < 51` for a text that is not a string of decimal digits (a sign, an
  exponent, a hexadecimal literal, white space, `NaN`, ...): JavaScript's conversion
  of such texts is not modelled and is left open. -/
  otherLessThan51 : String → Bool

/-- `text < 51` with `text` a string: the text is converted to a number first. -/
def lessThan51 {W : Type} (env : Env W) (text : String) : Bool :=
  if text.data.all Char.isDigit then decide (decimalValue text.data < 51)
  else env.otherLessThan51 text

/-- Errors a run can end in. -/
inductive JsError where
  | parseError
  | typeError
  deriving DecidableEq, Repr

/-- The state of a run: the outside world and the calls made so far. -/
structure Run (W : Type) where
  world : W
  trace : List Event

/-- A computation: from a run state to a result (or a thrown error) and the next
run state. -/
def M (W α : Type) : Type := Run W → Except JsError α × Run W

/-- Sequencing: the second computation runs only when the first did not throw. -/
def M.bind {W α β : Type} (x : M W α) (f : α → M W β) : M W β := fun s =>
  match x s with
  | (.ok a, s') => f a s'
  | (.error e, s') => (.error e, s')

/-- Returning a value without any call. -/
def M.pure {W α : Type} (a : α) : M W α := fun s => (.ok a, s)

instance {W : Type} : Monad (M W) where
  pure := M.pure
  bind := M.bind

/-- An external call: apply the collaborator to the world and record the event. -/
def perform {W α : Type} (f : W → α × W) (ev : α → Event) : M W α := fun s =>
  match f s.world with
  | (a, w) => (.ok a, ⟨w, s.trace ++ [ev a]⟩)

/-- `console.log(msg)`. -/
def consoleLog {W : Type} (msg : String) : M W Unit := fun s =>
  (.ok (), ⟨s.world, s.trace ++ [Event.log msg]⟩)

/-- `throw`. -/
def throwJs {W α : Type} (e : JsError) : M W α := fun s => (.error e, s)

/-! ## The collaborators as computations -/

/-- `Common.systemSync(cmd, cwd)`. -/
def systemSync {W : Type} (env : Env W) (cmd : String) (cwd : Option String) : M W String :=
  perform (env.systemSync cmd cwd) (Event.systemSync cmd cwd)

/-- `Common.get_npm(root)`. -/
def get_npm {W : Type} (env : Env W) (root : String) : M W String :=
  perform (env.get_npm root) (Event.get_npm root)

/-- `Files.getCWD()`. -/
def getCWD {W : Type} (env : Env W) : M W String :=
  perform env.getCWD Event.getCWD

/-- `Files.correctRoot(path)`. -/
def correctRoot {W : Type} (env : Env W) (path : String) : M W String :=
  perform (env.correctRoot path) (Event.correctRoot path)

/-- `Files.walkDir(root, tree)`. -/
def walkDir {W : Type} (env : Env W) (root : String) (tree : JVal) : M W JVal :=
  perform (env.walkDir root tree) (Event.walkDir root)

/-- `Files.isGit(tree)`. -/
def isGit {W : Type} (env : Env W) (tree : JVal) : M W Bool :=
  perform (env.isGit tree) (Event.isGit tree)

/-- `Vcs.getHash(root)`. -/
def getHash {W : Type} (env : Env W) (root : String) : M W JVal :=
  perform (env.getHash root) (Event.getHash root)

/-- `Vcs.getProject(root)`. -/
def getProject {W : Type} (env : Env W) (root : String) : M W JVal :=
  perform (env.getProject root) (Event.getProject root)

/-- `Vcs.getBlame(root)`. -/
def getBlame {W : Type} (env : Env W) (root : String) : M W JVal :=
  perform (env.getBlame root) (Event.getBlame root)

/-- `Vcs.getURL(root)`. -/
def getURL {W : Type} (env : Env W) (root : String) : M W JVal :=
  perform (env.getURL root) (Event.getURL root)

/-- `Files.loadPackage(path)`. -/
def loadPackage {W : Type} (env : Env W) (path : String) : M W JVal :=
  perform (env.loadPackage path) (Event.loadPackage path)

/-- `Files.getDependencyList(pkg)`. -/
def getDependencyList {W : Type} (env : Env W) (pkg : JVal) : M W JVal :=
  perform (env.getDependencyList pkg) (Event.getDependencyList pkg)

/-- `Vcs.parseBlm(blame, deps)`. -/
def parseBlm {W : Type} (env : Env W) (blame deps : JVal) : M W JVal :=
  perform (env.parseBlm blame deps) (Event.parseBlm blame deps)

/-- `new Date().getUTCDate()`. -/
def getUTCDate {W : Type} (env : Env W) : M W Int :=
  perform env.getUTCDate Event.getUTCDate

/-- `Transport.sendResult(token, bundle, host, port)`. -/
def sendResult {W : Type} (env : Env W) (token : String) (bundle : JVal)
    (host port : Option String) : M W Unit := fun s =>
  (.ok (), ⟨env.sendResult token bundle host port s.world,
            s.trace ++ [Event.sendResult token bundle host port]⟩)

/-- `Files.saveResult(path, bundle)`. -/
def saveResult {W : Type} (env : Env W) (path : String) (bundle : JVal) : M W Unit := fun s =>
  (.ok (), ⟨env.saveResult path bundle s.world, s.trace ++ [Event.saveResult path bundle]⟩)

/-- `JSON.parse(text)`. -/
def jsonParse {W : Type} (env : Env W) (text : String) : M W JVal :=
  match env.jsonParse text with
  | some v => pure v
  | none => throwJs JsError.parseError

/-! ## `main.js` -/

/-- `runAudit(root_path)`, lines 48-62. -/
def runAudit {W : Type} (env : Env W) (root_path : String) : M W (Option String) := do
  let data ← systemSync env "ls" (some root_path)
  if includes data "package.json" then
    -- if lock not in the package, we need to create one.
    if !(includes data "package-lock.json") then
      consoleLog "INFO - Creating locks for dependency checker."
      let _ ← systemSync env "npm i --package-lock-only" (some root_path)
    let out ← systemSync env "npm audit --json" (some root_path)
    pure (some out)
  else
    consoleLog "INFO - Unable to locate base package information, are you sure package.json included?"
    pure none

/-- `processResult(data, start, root_path)`, lines 72-117.  The objects `date_time`,
`project`, `project_meta` and `vcs_info` are filled after they are linked into their
parent in the source; here each is written with the properties it has when the
function returns, in the order the source assigns them. -/
def processResult {W : Type} (env : Env W) (data : String) (start : Int) (root_path : String) :
    M W JVal := do
  -- get host name, parse raw data
  let host_name ← systemSync env "hostname" none
  let raw_data ← jsonParse env data
  -- walk though root and get all the file name
  let root_json ← walkDir env root_path (JVal.obj [])
  let is_git ← isGit env root_json
  -- get info related to git
  let (git_hash, proj_name, blame_inf, git_url) ←
    (if is_git then do
      let git_hash ← getHash env root_path
      let proj_name ← getProject env root_path
      let blame_inf ← getBlame env root_path
      let git_url ← getURL env root_path
      pure (git_hash, proj_name, blame_inf, git_url)
    else
      pure (JVal.null, JVal.null, JVal.null, JVal.null) : M W (JVal × JVal × JVal × JVal))
  -- get dependency related, assume package.json at root
  let package ← loadPackage env (root_path ++ "/package.json")
  let dep_lists ← getDependencyList env package
  let blm_lists ← parseBlm env blame_inf dep_lists
  -- always ok for now
  let status : Int := 0
  let vcs_info := JVal.obj [
    ("Git Url", git_url),
    ("Git Hash", git_hash),
    ("blm_lists", blm_lists)]
  let project_meta := JVal.obj [
    ("Project Name", proj_name),
    ("Dependencies", dep_lists),
    ("Absolute pth", JVal.str root_path),
    ("Exit Code", JVal.num status),
    ("VCS Info", vcs_info),
    ("File Info", root_json),
    ("Root", JVal.str ".")]
  let project := JVal.obj [
    ("Dependency Report", raw_data),
    ("Project Meta", project_meta)]
  let date_time := JVal.obj [("Start", JVal.num start)]
  let bundle := JVal.obj [
    ("Date", date_time),
    ("Machine Name", JVal.str host_name),
    ("Project", project)]
  pure bundle

/-- The check `(ver_list[0] + ver_list[1]) < 51` of line 140 on the npm version text:
the first two dot-separated pieces are concatenated as text and the text is compared
with 51 as a number. -/
def versionTooLow {W : Type} (env : Env W) (npm_ver : String) : Bool :=
  let ver_list := split npm_ver '.'
  lessThan51 env (elemText ver_list 0 ++ elemText ver_list 1)

/-- `main(token, isSend)`, lines 128-175, as called on line 178.  The result is `none`
for `return null` and `some result` for `return result`. -/
def main {W : Type} (env : Env W) (args : Args) : M W (Option JVal) := do
  match args.token with
  | none =>
    consoleLog "INFO - System exit since no token provided."
    consoleLog "INFO - Use '-h' argument to see help."
    pure none
  | some token =>
    let cwd ← getCWD env
    let root_path ← correctRoot env cwd
    consoleLog "INFO - Verifying npm."
    let npm_ver ← get_npm env root_path
    if versionTooLow env npm_ver then
      consoleLog "INFO - System exit since npm version too low(below 5.2.0), please check your npm (local package will override global one)."
      consoleLog ("INFO - Local npm version:" ++ npm_ver)
      pure none
    else
      let start ← getUTCDate env
      let data ← runAudit env root_path
      consoleLog "INFO - Creating dependency report."
      match data with
      | none =>
        consoleLog "INFO - System exit since no project found."
        pure none
      | some data =>
        let result ← processResult env data start root_path
        if includes (env.stringify result) "Not Committed Yet" then
          consoleLog "INFO - System exit since you have uncommitted contents."
          pure none
        else
          let end_ ← getUTCDate env
          match result.get "Date" with
          | none => throwJs JsError.typeError
          | some date_time =>
            let result := result.set "Date" (date_time.set "End" (JVal.num end_))
            match args.output_path with
            | none =>
              sendResult env token result args.host args.port
              pure none
            | some output_path =>
              saveResult env output_path result
              pure (some result)

/-! ## Vocabulary of the statements -/

/-- The part of `main` between the token check and the call of `processResult`
(lines 135-155): `some (root_path, start, data)` when the run reaches line 157, `none`
when `main` has returned `null` before. -/
def auditStage {W : Type} (env : Env W) : M W (Option (String × Int × String)) := do
  let cwd ← getCWD env
  let root_path ← correctRoot env cwd
  consoleLog "INFO - Verifying npm."
  let npm_ver ← get_npm env root_path
  if versionTooLow env npm_ver then
    consoleLog "INFO - System exit since npm version too low(below 5.2.0), please check your npm (local package will override global one)."
    consoleLog ("INFO - Local npm version:" ++ npm_ver)
    pure none
  else
    let start ← getUTCDate env
    let data ← runAudit env root_path
    consoleLog "INFO - Creating dependency report."
    match data with
    | none =>
      consoleLog "INFO - System exit since no project found."
      pure none
    | some data => pure (some (root_path, start, data))

/-- Reading along a path of property names, `o[k1][k2]...`. -/
def JVal.path : JVal → List String → Option JVal
  | v, [] => some v
  | v, k :: ks => (v.get k).bind fun x => JVal.path x ks

/-- The bundle an event hands to Transport.sendResult or Files.saveResult. -/
def Event.bundle : Event → Option JVal
  | .sendResult _ b _ _ => some b
  | .saveResult _ b => some b
  | _ => none

/-- The calls of Transport.sendResult and Files.saveResult in a trace, in order. -/
def deliveries (t : List Event) : List Event :=
  t.filter fun e => (Event.bundle e).isSome

/-- The event is a call of one of Vcs.getHash, Vcs.getProject, Vcs.getBlame,
Vcs.getURL. -/
def Event.isVcsQuery : Event → Bool
  | .getHash _ _ => true
  | .getProject _ _ => true
  | .getBlame _ _ => true
  | .getURL _ _ => true
  | _ => false

/-- The console messages of a trace, in order. -/
def consoleMessages : List Event → List String
  | [] => []
  | .log msg :: t => msg :: consoleMessages t
  | _ :: t => consoleMessages t

/-- The event with the token of a Transport.sendResult call replaced by `t`. -/
def Event.withToken (t : String) : Event → Event
  | .sendResult _ b h p => .sendResult t b h p
  | e => e

/-- The file names a listing printed by `ls` shows, one a line. -/
def listedFiles (listing : String) : List String :=
  split listing '\n'

/-- A version `major.minor.patch` is below 5.2.0. -/
def belowFiveTwo (major minor _patch : Nat) : Bool :=
  decide (major < 5) || (decide (major = 5) && decide (minor < 2))

/-! ## A concrete environment -/

mutual
/-- A plain serialiser: strings and property names in double quotes, every number
as `0`. -/
def render : JVal → List Char
  | .null => "null".data
  | .bool b => if b then "true".data else "false".data
  | .num _ => ['0']
  | .str s => '"' :: s.data ++ ['"']
  | .arr xs => '[' :: renderList xs ++ [']']
  | .obj ps => '{' :: renderProps ps ++ ['}']
/-- The elements of an array, separated by commas. -/
def renderList : List JVal → List Char
  | [] => []
  | [x] => render x
  | x :: y :: r => render x ++ ',' :: renderList (y :: r)
/-- The properties of an object, separated by commas. -/
def renderProps : List (String × JVal) → List Char
  | [] => []
  | [(k, v)] => '"' :: k.data ++ '"' :: ':' :: render v
  | (k, v) :: p :: r => '"' :: k.data ++ '"' :: ':' :: render v ++ ',' :: renderProps (p :: r)
end

/-- A small world: the state counts the calls made.  `ls` prints `listing`, npm
reports `ver`, the root is a repository when `git`, and the blame of `package.json`
is `blame`; the correlator hands the blame through. -/
def demoEnv (listing ver : String) (git : Bool) (blame : JVal) : Env Nat where
  systemSync := fun cmd _ w =>
    (if cmd = "ls" then listing else if cmd = "hostname" then "box" else "[]", w + 1)
  get_npm := fun _ w => (ver, w + 1)
  getCWD := fun w => ("/proj", w + 1)
  correctRoot := fun p w => (p, w + 1)
  walkDir := fun _ t w => (t, w + 1)
  isGit := fun _ w => (git, w + 1)
  getHash := fun _ w => (JVal.str "abc", w + 1)
  getProject := fun _ w => (JVal.str "proj", w + 1)
  getBlame := fun _ w => (blame, w + 1)
  getURL := fun _ w => (JVal.str "url", w + 1)
  loadPackage := fun _ w => (JVal.obj [], w + 1)
  getDependencyList := fun _ w => (JVal.arr [], w + 1)
  parseBlm := fun b _ w => (b, w + 1)
  sendResult := fun _ _ _ _ w => w + 1
  saveResult := fun _ _ w => w + 1
  getUTCDate := fun w => (7, w + 1)
  jsonParse := fun t => if t = "[]" then some (JVal.arr []) else none
  stringify := fun v => String.mk (render v)
  otherLessThan51 := fun _ => false

/-- The bundle `processResult` builds in the small world for the root `/proj`, start
day 7 and audit text `[]`, when the root is no repository. -/
def plainBundle : JVal :=
  JVal.obj [
    ("Date", JVal.obj [("Start", JVal.num 7)]),
    ("Machine Name", JVal.str "box"),
    ("Project", JVal.obj [
      ("Dependency Report", JVal.arr []),
      ("Project Meta", JVal.obj [
        ("Project Name", JVal.null),
        ("Dependencies", JVal.arr []),
        ("Absolute pth", JVal.str "/proj"),
        ("Exit Code", JVal.num 0),
        ("VCS Info", JVal.obj [
          ("Git Url", JVal.null),
          ("Git Hash", JVal.null),
          ("blm_lists", JVal.null)]),
        ("File Info", JVal.obj []),
        ("Root", JVal.str ".")])])]

/-- The bundle `processResult` builds in the small world for the root `/proj`, start
day 7 and audit text `[]`, when the root is a repository with blame `blame`. -/
def repoBundle (blame : JVal) : JVal :=
  JVal.obj [
    ("Date", JVal.obj [("Start", JVal.num 7)]),
    ("Machine Name", JVal.str "box"),
    ("Project", JVal.obj [
      ("Dependency Report", JVal.arr []),
      ("Project Meta", JVal.obj [
        ("Project Name", JVal.str "proj"),
        ("Dependencies", JVal.arr []),
        ("Absolute pth", JVal.str "/proj"),
        ("Exit Code", JVal.num 0),
        ("VCS Info", JVal.obj [
          ("Git Url", JVal.str "url"),
          ("Git Hash", JVal.str "abc"),
          ("blm_lists", blame)]),
        ("File Info", JVal.obj []),
        ("Root", JVal.str ".")])])]

/-- The small world with a repository root whose `package.json` has a line that is not
committed: `git blame` names its author `Not Committed Yet`. -/
def dirtyEnv : Env Nat :=
  demoEnv "package.json\npackage-lock.json\n" "6.14.4" true (JVal.str "Not Committed Yet")

/-- The small world with a repository root and nothing uncommitted. -/
def cleanEnv : Env Nat :=
  demoEnv "package.json\npackage-lock.json\n" "6.14.4" true JVal.null

/-- A command line with the token `secret` and the output path `out`. -/
def tokenArgs (out : Option String) : Args :=
  Args.mk (some "secret") out none none

/-! ## Unfolding a computation -/

@[simp] theorem bind_apply {W α β : Type} (x : M W α) (f : α → M W β) (s : Run W) :
    (x >>= f) s = (match x s with
      | (.ok a, s') => f a s'
      | (.error e, s') => (.error e, s')) := rfl

@[simp] theorem pure_apply {W α : Type} (a : α) (s : Run W) :
    (pure a : M W α) s = (.ok a, s) := rfl

@[simp] theorem perform_apply {W α : Type} (f : W → α × W) (ev : α → Event) (s : Run W) :
    perform f ev s = (.ok (f s.world).1, ⟨(f s.world).2, s.trace ++ [ev (f s.world).1]⟩) := rfl

@[simp] theorem consoleLog_apply {W : Type} (msg : String) (s : Run W) :
    consoleLog msg s = (.ok (), ⟨s.world, s.trace ++ [Event.log msg]⟩) := rfl

@[simp] theorem throwJs_apply {W α : Type} (e : JsError) (s : Run W) :
    (throwJs e : M W α) s = (.error e, s) := rfl

/-! ## `runAudit` -/

/-- What `runAudit` does, by the two substring tests on the listing. -/
theorem runAudit_eq {W : Type} (env : Env W) (root : String) (s : Run W) :
    runAudit env root s =
      (let l := env.systemSync "ls" (some root) s.world
       let t1 := s.trace ++ [Event.systemSync "ls" (some root) l.1]
       if includes l.1 "package.json" then
         if includes l.1 "package-lock.json" then
           let a := env.systemSync "npm audit --json" (some root) l.2
           (.ok (some a.1), ⟨a.2, t1 ++ [Event.systemSync "npm audit --json" (some root) a.1]⟩)
         else
           let i := env.systemSync "npm i --package-lock-only" (some root) l.2
           let a := env.systemSync "npm audit --json" (some root) i.2
           (.ok (some a.1), ⟨a.2, t1 ++ [Event.log "INFO - Creating locks for dependency checker.",
              Event.systemSync "npm i --package-lock-only" (some root) i.1,
              Event.systemSync "npm audit --json" (some root) a.1]⟩)
       else
         (.ok none, ⟨l.2, t1 ++ [Event.log
            "INFO - Unable to locate base package information, are you sure package.json included?"]⟩)) := by
  simp only [runAudit, systemSync, bind_apply, perform_apply]
  by_cases h1 : includes (env.systemSync "ls" (some root) s.world).1 "package.json" = true
  · by_cases h2 : includes (env.systemSync "ls" (some root) s.world).1 "package-lock.json" = true
    · simp [h1, h2]
    · simp [h1, h2]
  · simp [h1]

/-! ## `processResult` -/

/-- What `processResult` does: it throws when `JSON.parse` does, after the `hostname`
call; otherwise it returns the bundle, and the four Vcs queries are made exactly when
Files.isGit answered true. -/
theorem processResult_eq {W : Type} (env : Env W) (data : String) (start : Int)
    (root : String) (s : Run W) :
    processResult env data start root s =
      (let h := env.systemSync "hostname" none s.world
       let t1 := s.trace ++ [Event.systemSync "hostname" none h.1]
       match env.jsonParse data with
       | none => (.error JsError.parseError, ⟨h.2, t1⟩)
       | some raw =>
         let wd := env.walkDir root (JVal.obj []) h.2
         let g := env.isGit wd.1 wd.2
         let t2 := t1 ++ [Event.walkDir root wd.1, Event.isGit wd.1 g.1]
         let rest := fun (git_hash proj_name blame_inf git_url : JVal) (w : W) (t : List Event) =>
           let lp := env.loadPackage (root ++ "/package.json") w
           let gd := env.getDependencyList lp.1 lp.2
           let pb := env.parseBlm blame_inf gd.1 gd.2
           ((Except.ok (JVal.obj [
              ("Date", JVal.obj [("Start", JVal.num start)]),
              ("Machine Name", JVal.str h.1),
              ("Project", JVal.obj [
                ("Dependency Report", raw),
                ("Project Meta", JVal.obj [
                  ("Project Name", proj_name),
                  ("Dependencies", gd.1),
                  ("Absolute pth", JVal.str root),
                  ("Exit Code", JVal.num 0),
                  ("VCS Info", JVal.obj [
                    ("Git Url", git_url),
                    ("Git Hash", git_hash),
                    ("blm_lists", pb.1)]),
                  ("File Info", wd.1),
                  ("Root", JVal.str ".")])])]) : Except JsError JVal),
            (⟨pb.2, t ++ [Event.loadPackage (root ++ "/package.json") lp.1,
              Event.getDependencyList lp.1 gd.1, Event.parseBlm blame_inf gd.1 pb.1]⟩ : Run W))
         if g.1 = true then
           let gh := env.getHash root g.2
           let gp := env.getProject root gh.2
           let gb := env.getBlame root gp.2
           let gu := env.getURL root gb.2
           rest gh.1 gp.1 gb.1 gu.1 gu.2
             (t2 ++ [Event.getHash root gh.1, Event.getProject root gp.1,
               Event.getBlame root gb.1, Event.getURL root gu.1])
         else rest JVal.null JVal.null JVal.null JVal.null g.2 t2) := by
  simp only [processResult, systemSync, jsonParse, walkDir, isGit, getHash, getProject,
    getBlame, getURL, loadPackage, getDependencyList, parseBlm, bind_apply, perform_apply]
  cases hp : env.jsonParse data with
  | none => simp
  | some raw =>
    by_cases hg : (env.isGit (env.walkDir root (JVal.obj []) (env.systemSync "hostname" none s.world).2).1
                (env.walkDir root (JVal.obj []) (env.systemSync "hostname" none s.world).2).2).1 = true
    · simp [hg]
    · simp [hg]


/-- The bundle `processResult` returns, as its property lists. -/
theorem processResult_bundle {W : Type} (env : Env W) (data : String) (start : Int)
    (root : String) (s : Run W) (b : JVal)
    (h : (processResult env data start root s).1 = .ok b) :
    ∃ host raw name deps url hash blm tree, b = JVal.obj [
      ("Date", JVal.obj [("Start", JVal.num start)]),
      ("Machine Name", JVal.str host),
      ("Project", JVal.obj [
        ("Dependency Report", raw),
        ("Project Meta", JVal.obj [
          ("Project Name", name),
          ("Dependencies", deps),
          ("Absolute pth", JVal.str root),
          ("Exit Code", JVal.num 0),
          ("VCS Info", JVal.obj [
            ("Git Url", url),
            ("Git Hash", hash),
            ("blm_lists", blm)]),
          ("File Info", tree),
          ("Root", JVal.str ".")])])] := by
  rw [processResult_eq] at h
  cases hp : env.jsonParse data with
  | none => simp [hp] at h
  | some raw =>
    simp only [hp] at h
    split at h
    · simp only [Except.ok.injEq] at h
      exact ⟨_, _, _, _, _, _, _, _, h.symm⟩
    · simp only [Except.ok.injEq] at h
      exact ⟨_, _, _, _, _, _, _, _, h.symm⟩

/-- The events `processResult` adds to the trace are no calls of Transport.sendResult or
Files.saveResult. -/
theorem processResult_deliveries {W : Type} (env : Env W) (data : String) (start : Int)
    (root : String) (s : Run W) :
    deliveries (processResult env data start root s).2.trace = deliveries s.trace := by
  rw [processResult_eq]
  cases hp : env.jsonParse data with
  | none => simp [deliveries, Event.bundle]
  | some raw =>
    simp only []
    split <;> simp [deliveries, Event.bundle]

/-- C2: whenever `processResult` returns a bundle, whatever Files.isGit answered, its
property names are `Date`, `Machine Name`, `Project`; those of `Project` are
`Dependency Report`, `Project Meta`; those of `Project Meta` are `Project Name`,
`Dependencies`, `Absolute pth`, `Exit Code`, `VCS Info`, `File Info`, `Root`; those of
`VCS Info` are `Git Url`, `Git Hash`, `blm_lists`. -/
theorem processResult_keys {W : Type} (env : Env W) (data : String) (start : Int)
    (root : String) (s : Run W) (b : JVal)
    (h : (processResult env data start root s).1 = .ok b) :
    b.keys = ["Date", "Machine Name", "Project"] ∧
    (b.path ["Project"]).map JVal.keys = some ["Dependency Report", "Project Meta"] ∧
    (b.path ["Project", "Project Meta"]).map JVal.keys =
      some ["Project Name", "Dependencies", "Absolute pth", "Exit Code", "VCS Info",
        "File Info", "Root"] ∧
    (b.path ["Project", "Project Meta", "VCS Info"]).map JVal.keys =
      some ["Git Url", "Git Hash", "blm_lists"] := by
  obtain ⟨host, raw, name, deps, url, hash, blm, tree, rfl⟩ :=
    processResult_bundle env data start root s _ h
  simp [JVal.keys, JVal.path, JVal.get, List.lookup]

/-- Witness of C2: in the small world, a root that is no repository gives
`plainBundle`, and it has the property names of the theorem. -/
theorem processResult_keys_witness :
    (processResult (demoEnv "package.json\n" "6.14.4" false JVal.null) "[]" 7 "/proj"
        ⟨0, []⟩).1 = .ok plainBundle ∧
    plainBundle.keys = ["Date", "Machine Name", "Project"] ∧
    (plainBundle.path ["Project"]).map JVal.keys =
      some ["Dependency Report", "Project Meta"] ∧
    (plainBundle.path ["Project", "Project Meta"]).map JVal.keys =
      some ["Project Name", "Dependencies", "Absolute pth", "Exit Code", "VCS Info",
        "File Info", "Root"] ∧
    (plainBundle.path ["Project", "Project Meta", "VCS Info"]).map JVal.keys =
      some ["Git Url", "Git Hash", "blm_lists"] :=
  ⟨rfl, processResult_keys (demoEnv "package.json\n" "6.14.4" false JVal.null) "[]" 7
    "/proj" ⟨0, []⟩ plainBundle rfl⟩

/-- C8, as amended: whenever `processResult` returns a bundle, its `Project Meta` has a
property named `Absolute pth` and the value is the root path `processResult` was
given. -/
theorem processResult_absolute_pth {W : Type} (env : Env W) (data : String) (start : Int)
    (root : String) (s : Run W) (b : JVal)
    (h : (processResult env data start root s).1 = .ok b) :
    b.path ["Project", "Project Meta", "Absolute pth"] = some (JVal.str root) := by
  obtain ⟨host, raw, name, deps, url, hash, blm, tree, rfl⟩ :=
    processResult_bundle env data start root s _ h
  simp [JVal.path, JVal.get, List.lookup]

/-- Witness of C8 as amended, in the small world. -/
theorem processResult_absolute_pth_witness :
    (processResult (demoEnv "package.json\n" "6.14.4" true JVal.null) "[]" 7 "/proj"
        ⟨0, []⟩).1 = .ok (repoBundle JVal.null) ∧
    (repoBundle JVal.null).path ["Project", "Project Meta", "Absolute pth"]
      = some (JVal.str "/proj") :=
  ⟨rfl, processResult_absolute_pth (demoEnv "package.json\n" "6.14.4" true JVal.null) "[]" 7
    "/proj" ⟨0, []⟩ (repoBundle JVal.null) rfl⟩

/-- C8, as stated, fails: in the small world `processResult` returns `plainBundle`, whose
`Project Meta` has no property named `Absolute Path`. -/
theorem processResult_no_absolute_path :
    (processResult (demoEnv "package.json\n" "6.14.4" false JVal.null) "[]" 7 "/proj"
        ⟨0, []⟩).1 = .ok plainBundle ∧
    plainBundle.path ["Project", "Project Meta", "Absolute Path"] = none ∧
    ((plainBundle.path ["Project", "Project Meta"]).map JVal.keys).map
      (fun ks => decide ("Absolute Path" ∈ ks)) = some false :=
  ⟨rfl, rfl, rfl⟩


/-- C3: in a call of `processResult` in which Files.isGit reports false, none of
Vcs.getHash, Vcs.getProject, Vcs.getBlame, Vcs.getURL is called, a bundle is returned,
its `Git Url`, `Git Hash` and `Project Name` are `null`, and its `blm_lists` is what
Vcs.parseBlm returned for the blame `null` and the dependency list, the list that
Files.getDependencyList returned and that is the bundle's `Dependencies`. -/
theorem processResult_not_git {W : Type} (env : Env W) (data : String) (start : Int)
    (root : String) (w : W) (tree : JVal)
    (h : Event.isGit tree false ∈ (processResult env data start root ⟨w, []⟩).2.trace) :
    ∃ b deps blm,
      (processResult env data start root ⟨w, []⟩).1 = .ok b ∧
      (∀ e ∈ (processResult env data start root ⟨w, []⟩).2.trace, e.isVcsQuery = false) ∧
      b.path ["Project", "Project Meta", "VCS Info", "Git Url"] = some JVal.null ∧
      b.path ["Project", "Project Meta", "VCS Info", "Git Hash"] = some JVal.null ∧
      b.path ["Project", "Project Meta", "Project Name"] = some JVal.null ∧
      (∃ pkg, Event.getDependencyList pkg deps ∈
        (processResult env data start root ⟨w, []⟩).2.trace) ∧
      Event.parseBlm JVal.null deps blm ∈ (processResult env data start root ⟨w, []⟩).2.trace ∧
      b.path ["Project", "Project Meta", "Dependencies"] = some deps ∧
      b.path ["Project", "Project Meta", "VCS Info", "blm_lists"] = some blm := by
  rw [processResult_eq] at h ⊢
  cases hp : env.jsonParse data with
  | none => simp [hp] at h
  | some raw =>
    simp only [hp] at h ⊢
    split
    · rename_i hg
      simp [hg] at h
    · refine ⟨_, ?deps, ?blm, rfl, ?h1, ?h2, ?h3, ?h4, ?h8, ?h5, ?h6, ?h7⟩
      case h6 =>
        simp only [JVal.path, JVal.get, List.lookup, Option.bind]
        exact rfl
      case h7 =>
        simp only [JVal.path, JVal.get, List.lookup, Option.bind]
        exact rfl
      case h1 =>
        intro e he
        simp at he
        rcases he with he | he | he | he | he | he <;> subst he <;> rfl
      case h2 => rfl
      case h3 => rfl
      case h4 => rfl
      case h5 => simp
      case h8 => exact ⟨_, List.mem_append_right _ (List.Mem.tail _ (List.Mem.head _))⟩

/-- Witness of C3: in the small world with a root that is no repository. -/
theorem processResult_not_git_witness :
    Event.isGit (JVal.obj []) false ∈
      (processResult (demoEnv "package.json\n" "6.14.4" false JVal.null) "[]" 7 "/proj"
        ⟨0, []⟩).2.trace ∧
    ∃ b deps blm,
      (processResult (demoEnv "package.json\n" "6.14.4" false JVal.null) "[]" 7 "/proj"
        ⟨0, []⟩).1 = .ok b ∧
      (∀ e ∈ (processResult (demoEnv "package.json\n" "6.14.4" false JVal.null) "[]" 7 "/proj"
        ⟨0, []⟩).2.trace, e.isVcsQuery = false) ∧
      b.path ["Project", "Project Meta", "VCS Info", "Git Url"] = some JVal.null ∧
      b.path ["Project", "Project Meta", "VCS Info", "Git Hash"] = some JVal.null ∧
      b.path ["Project", "Project Meta", "Project Name"] = some JVal.null ∧
      (∃ pkg, Event.getDependencyList pkg deps ∈
        (processResult (demoEnv "package.json\n" "6.14.4" false JVal.null) "[]" 7 "/proj"
          ⟨0, []⟩).2.trace) ∧
      Event.parseBlm JVal.null deps blm ∈
        (processResult (demoEnv "package.json\n" "6.14.4" false JVal.null) "[]" 7 "/proj"
          ⟨0, []⟩).2.trace ∧
      b.path ["Project", "Project Meta", "Dependencies"] = some deps ∧
      b.path ["Project", "Project Meta", "VCS Info", "blm_lists"] = some blm :=
  ⟨List.Mem.tail _ (List.Mem.tail _ (List.Mem.head _)),
   processResult_not_git (demoEnv "package.json\n" "6.14.4" false JVal.null) "[]" 7 "/proj"
     0 (JVal.obj []) (List.Mem.tail _ (List.Mem.tail _ (List.Mem.head _)))⟩


/-! ## `main` -/

/-- The bundle `processResult` returns has `Date` with the one property `Start`. -/
theorem processResult_date {W : Type} (env : Env W) (data : String) (start : Int)
    (root : String) (s : Run W) (b : JVal)
    (h : (processResult env data start root s).1 = .ok b) :
    b.get "Date" = some (JVal.obj [("Start", JVal.num start)]) := by
  obtain ⟨host, raw, name, deps, url, hash, blm, tree, rfl⟩ :=
    processResult_bundle env data start root s _ h
  rfl

/-- What `main` does, by its guards: the token, the stage up to the audit, the bundle
of `processResult`, the marker, the output path. -/
theorem main_eq {W : Type} (env : Env W) (args : Args) (s : Run W) :
    main env args s =
      (match args.token with
       | none =>
         (.ok none, ⟨s.world, s.trace ++ [Event.log "INFO - System exit since no token provided.",
            Event.log "INFO - Use '-h' argument to see help."]⟩)
       | some token =>
         match auditStage env s with
         | (.error e, s1) => (.error e, s1)
         | (.ok none, s1) => (.ok none, s1)
         | (.ok (some (root, start, data)), s1) =>
           match processResult env data start root s1 with
           | (.error e, s2) => (.error e, s2)
           | (.ok b, s2) =>
             if includes (env.stringify b) "Not Committed Yet" then
               (.ok none, ⟨s2.world, s2.trace ++
                 [Event.log "INFO - System exit since you have uncommitted contents."]⟩)
             else
               let e := env.getUTCDate s2.world
               let r := b.set "Date" (JVal.obj [("Start", JVal.num start), ("End", JVal.num e.1)])
               match args.output_path with
               | none =>
                 (.ok none, ⟨env.sendResult token r args.host args.port e.2,
                   s2.trace ++ [Event.getUTCDate e.1, Event.sendResult token r args.host args.port]⟩)
               | some p =>
                 (.ok (some r), ⟨env.saveResult p r e.2,
                   s2.trace ++ [Event.getUTCDate e.1, Event.saveResult p r]⟩)) := by
  cases ht : args.token with
  | none => simp [main, ht]
  | some token =>
    simp only [main, auditStage, ht, getCWD, correctRoot, get_npm, getUTCDate, bind_apply,
      perform_apply, consoleLog_apply, pure_apply]
    split
    · simp
    · simp only [bind_apply, perform_apply]
      generalize runAudit env _ _ = ra
      rcases ra with ⟨_ | _ | data, s1⟩
      · rfl
      · rfl
      · simp only [consoleLog_apply, bind_apply, pure_apply]
        generalize hs : (⟨s1.world, s1.trace ++ [Event.log "INFO - Creating dependency report."]⟩ : Run W) = s1'
        cases hp : processResult env data _ _ s1' with
        | mk r s2 =>
          cases r with
          | error e => rfl
          | ok b =>
            have hd := processResult_date env data _ _ s1' b (by rw [hp])
            simp only []
            by_cases hm : includes (env.stringify b) "Not Committed Yet" = true
            · simp [hm]
            · simp only [hm, if_false, bind_apply, perform_apply, hd]
              cases ho : args.output_path with
              | none => simp [sendResult, JVal.set, assign]
              | some p => simp [saveResult, JVal.set, assign]


/-- The events `runAudit` adds to the trace are no calls of Transport.sendResult or
Files.saveResult, and `runAudit` does not throw. -/
theorem runAudit_deliveries {W : Type} (env : Env W) (root : String) (s : Run W) :
    deliveries (runAudit env root s).2.trace = deliveries s.trace ∧
    ∃ d, (runAudit env root s).1 = .ok d := by
  rw [runAudit_eq]
  simp only []
  split
  · split <;> simp [deliveries, Event.bundle]
  · simp [deliveries, Event.bundle]

/-- What the stage up to the audit does, by the version check and the result of
`runAudit`. -/
theorem auditStage_eq {W : Type} (env : Env W) (s : Run W) :
    auditStage env s =
      (let c := env.getCWD s.world
       let r := env.correctRoot c.1 c.2
       let n := env.get_npm r.1 r.2
       let t := s.trace ++ [Event.getCWD c.1, Event.correctRoot c.1 r.1,
         Event.log "INFO - Verifying npm.", Event.get_npm r.1 n.1]
       if versionTooLow env n.1 then
         (.ok none, ⟨n.2, t ++ [Event.log "INFO - System exit since npm version too low(below 5.2.0), please check your npm (local package will override global one).",
           Event.log ("INFO - Local npm version:" ++ n.1)]⟩)
       else
         let d := env.getUTCDate n.2
         match runAudit env r.1 ⟨d.2, t ++ [Event.getUTCDate d.1]⟩ with
         | (.error e, s1) => (.error e, s1)
         | (.ok none, s1) =>
           (.ok none, ⟨s1.world, s1.trace ++ [Event.log "INFO - Creating dependency report.",
             Event.log "INFO - System exit since no project found."]⟩)
         | (.ok (some data), s1) =>
           (.ok (some (r.1, d.1, data)),
             ⟨s1.world, s1.trace ++ [Event.log "INFO - Creating dependency report."]⟩)) := by
  simp only [auditStage, getCWD, correctRoot, get_npm, getUTCDate, bind_apply,
    perform_apply, consoleLog_apply, pure_apply]
  split
  · simp
  · simp only [bind_apply, perform_apply, List.append_assoc, List.singleton_append,
      List.cons_append, List.nil_append]
    generalize runAudit env _ _ = ra
    rcases ra with ⟨_ | _ | data, s1⟩
    · rfl
    · simp
    · simp

/-- The events the stage up to the audit adds to the trace are no calls of
Transport.sendResult or Files.saveResult. -/
theorem auditStage_deliveries {W : Type} (env : Env W) (s : Run W) :
    deliveries (auditStage env s).2.trace = deliveries s.trace := by
  rw [auditStage_eq]
  simp only []
  split
  · simp [deliveries, Event.bundle]
  · have h := (runAudit_deliveries env
      (env.correctRoot (env.getCWD s.world).1 (env.getCWD s.world).2).1
      ⟨(env.getUTCDate (env.get_npm (env.correctRoot (env.getCWD s.world).1 (env.getCWD s.world).2).1
          (env.correctRoot (env.getCWD s.world).1 (env.getCWD s.world).2).2).2).2,
       s.trace ++ [Event.getCWD (env.getCWD s.world).1,
         Event.correctRoot (env.getCWD s.world).1
           (env.correctRoot (env.getCWD s.world).1 (env.getCWD s.world).2).1,
         Event.log "INFO - Verifying npm.",
         Event.get_npm (env.correctRoot (env.getCWD s.world).1 (env.getCWD s.world).2).1
           (env.get_npm (env.correctRoot (env.getCWD s.world).1 (env.getCWD s.world).2).1
             (env.correctRoot (env.getCWD s.world).1 (env.getCWD s.world).2).2).1] ++
         [Event.getUTCDate (env.getUTCDate (env.get_npm
           (env.correctRoot (env.getCWD s.world).1 (env.getCWD s.world).2).1
           (env.correctRoot (env.getCWD s.world).1 (env.getCWD s.world).2).2).2).1]⟩).1
    revert h
    generalize runAudit env _ _ = ra
    rcases ra with ⟨_ | _ | data, s1⟩ <;> intro h <;>
      simp_all [deliveries, Event.bundle]

/-- C4: when the token is absent, `main` returns `null` without throwing; all it does
is log two messages: no npm version check, no audit, no Vcs or file call, nothing sent
and nothing saved, and the world is as it was. -/
theorem main_without_token {W : Type} (env : Env W) (args : Args) (s : Run W)
    (h : args.token = none) :
    main env args s = (.ok none, ⟨s.world, s.trace ++
      [Event.log "INFO - System exit since no token provided.",
       Event.log "INFO - Use '-h' argument to see help."]⟩) := by
  rw [main_eq, h]

/-- Witness of C4: the small world, no option given. -/
theorem main_without_token_witness :
    (Args.mk none none none none).token = none ∧
    main (demoEnv "package.json\n" "6.14.4" true JVal.null) (Args.mk none none none none) ⟨0, []⟩
      = (.ok none, ⟨0, [Event.log "INFO - System exit since no token provided.",
          Event.log "INFO - Use '-h' argument to see help."]⟩) :=
  ⟨rfl, main_without_token (demoEnv "package.json\n" "6.14.4" true JVal.null)
    (Args.mk none none none none) ⟨0, []⟩ rfl⟩


/-- C1: in a run of `main` with the token present that reaches line 157 (the npm
version check passed and the audit returned data), if `JSON.stringify` of the bundle
`processResult` returned contains `Not Committed Yet`, then `main` returns `null` and
the run holds no call of Transport.sendResult or Files.saveResult. -/
theorem main_uncommitted {W : Type} (env : Env W) (args : Args) (w : W) (tok : String)
    (root : String) (start : Int) (data : String) (b : JVal)
    (htok : args.token = some tok)
    (haudit : (auditStage env ⟨w, []⟩).1 = .ok (some (root, start, data)))
    (hbundle : (processResult env data start root (auditStage env ⟨w, []⟩).2).1 = .ok b)
    (hmark : includes (env.stringify b) "Not Committed Yet" = true) :
    (main env args ⟨w, []⟩).1 = .ok none ∧
    deliveries (main env args ⟨w, []⟩).2.trace = [] := by
  have hd := processResult_deliveries env data start root (auditStage env ⟨w, []⟩).2
  rw [auditStage_deliveries] at hd
  rw [main_eq, htok]
  revert haudit hbundle hd
  generalize auditStage env ⟨w, []⟩ = st
  rcases st with ⟨r1, s1⟩
  intro haudit
  simp only at haudit
  subst haudit
  simp only []
  generalize processResult env data start root s1 = pr
  rcases pr with ⟨r2, s2⟩
  intro hbundle hd
  simp only at hbundle hd
  subst hbundle
  simp only [hmark, if_true]
  refine ⟨trivial, ?_⟩
  simp only [deliveries, List.filter_append] at hd ⊢
  rw [hd]
  rfl

/-- C5: in a run of `main` that passes all guards (token present, line 157 reached,
`processResult` returned a bundle whose serialisation does not contain the marker),
with `end_` the day the clock reports on line 164 and `r` the bundle after line 165:
when an output path is configured, the only delivery of the run is one call of
Files.saveResult with that path and `r`, and `main` returns `r`; when none is
configured, the only delivery is one call of Transport.sendResult with the token, `r`,
the configured host and port, and `main` returns `null`. -/
theorem main_delivers_once {W : Type} (env : Env W) (args : Args) (w : W) (tok : String)
    (root : String) (start : Int) (data : String) (b : JVal) (end_ : Int)
    (htok : args.token = some tok)
    (haudit : (auditStage env ⟨w, []⟩).1 = .ok (some (root, start, data)))
    (hbundle : (processResult env data start root (auditStage env ⟨w, []⟩).2).1 = .ok b)
    (hmark : includes (env.stringify b) "Not Committed Yet" = false)
    (hend : (env.getUTCDate
      (processResult env data start root (auditStage env ⟨w, []⟩).2).2.world).1 = end_) :
    (∀ p, args.output_path = some p →
      (main env args ⟨w, []⟩).1 = .ok (some (b.set "Date"
        (JVal.obj [("Start", JVal.num start), ("End", JVal.num end_)]))) ∧
      deliveries (main env args ⟨w, []⟩).2.trace = [Event.saveResult p (b.set "Date"
        (JVal.obj [("Start", JVal.num start), ("End", JVal.num end_)]))]) ∧
    (args.output_path = none →
      (main env args ⟨w, []⟩).1 = .ok none ∧
      deliveries (main env args ⟨w, []⟩).2.trace = [Event.sendResult tok (b.set "Date"
        (JVal.obj [("Start", JVal.num start), ("End", JVal.num end_)])) args.host args.port]) := by
  have hd := processResult_deliveries env data start root (auditStage env ⟨w, []⟩).2
  rw [auditStage_deliveries] at hd
  rw [main_eq, htok]
  revert haudit hbundle hd hend
  generalize auditStage env ⟨w, []⟩ = st
  rcases st with ⟨r1, s1⟩
  intro haudit
  simp only at haudit
  subst haudit
  simp only []
  generalize processResult env data start root s1 = pr
  rcases pr with ⟨r2, s2⟩
  intro hbundle hend hd
  simp only at hbundle hd hend
  subst hbundle
  subst hend
  simp only [hmark, Bool.false_eq_true, if_false]
  refine ⟨?_, ?_⟩
  · intro p hp
    simp only [hp]
    refine ⟨trivial, ?_⟩
    simp only [deliveries, List.filter_append] at hd ⊢
    rw [hd]
    rfl
  · intro hp
    simp only [hp]
    refine ⟨trivial, ?_⟩
    simp only [deliveries, List.filter_append] at hd ⊢
    rw [hd]
    rfl


set_option maxRecDepth 100000 in
/-- Witness of C1: the repository of `dirtyEnv` has an uncommitted line, the
serialised bundle contains the marker, and `main` returns `null` with no delivery. -/
theorem main_uncommitted_witness :
    includes (dirtyEnv.stringify (repoBundle (JVal.str "Not Committed Yet")))
      "Not Committed Yet" = true ∧
    (main dirtyEnv (tokenArgs none) ⟨0, []⟩).1 = .ok none ∧
    deliveries (main dirtyEnv (tokenArgs none) ⟨0, []⟩).2.trace = [] :=
  ⟨rfl, main_uncommitted dirtyEnv (tokenArgs none) 0 "secret" "/proj" 7 "[]"
    (repoBundle (JVal.str "Not Committed Yet")) rfl rfl rfl rfl⟩

set_option maxRecDepth 100000 in
/-- Witness of C5: with the output path `/tmp/out.json` configured, the clean
repository of `cleanEnv` is saved once, not sent, and `main` returns the bundle. -/
theorem main_delivers_once_witness :
    includes (cleanEnv.stringify (repoBundle JVal.null)) "Not Committed Yet" = false ∧
    (main cleanEnv (tokenArgs (some "/tmp/out.json")) ⟨0, []⟩).1 =
      .ok (some ((repoBundle JVal.null).set "Date"
        (JVal.obj [("Start", JVal.num 7), ("End", JVal.num 7)]))) ∧
    deliveries (main cleanEnv (tokenArgs (some "/tmp/out.json")) ⟨0, []⟩).2.trace =
      [Event.saveResult "/tmp/out.json" ((repoBundle JVal.null).set "Date"
        (JVal.obj [("Start", JVal.num 7), ("End", JVal.num 7)]))] :=
  ⟨rfl, (main_delivers_once cleanEnv (tokenArgs (some "/tmp/out.json")) 0 "secret" "/proj" 7
    "[]" (repoBundle JVal.null) 7 rfl rfl rfl rfl rfl).1 "/tmp/out.json" rfl⟩


/-- A trace without deliveries hands no bundle to Transport.sendResult or
Files.saveResult. -/
theorem bundle_none_of_deliveries {t : List Event} (h : deliveries t = []) :
    ∀ e ∈ t, Event.bundle e = none := by
  intro e he
  have := List.filter_eq_nil_iff.mp h e he
  cases hb : Event.bundle e with
  | none => rfl
  | some r => simp [hb] at this

/-- C9: (1) the bundle `processResult` returns has `Date`.`Start` equal to the start
value it was given and no `Date`.`End`; (2) every bundle that a run of `main` hands to
Transport.sendResult or Files.saveResult, or returns, is a bundle `b` that
`processResult` returned in that run, whose serialisation did not contain
`Not Committed Yet`, with `End` assigned in its `Date`: it has both `Date`.`Start` and
`Date`.`End`. -/
theorem date_end_after_guard {W : Type} (env : Env W) (args : Args) (w : W) :
    (∀ data start root s b, (processResult env data start root s).1 = .ok b →
      b.path ["Date", "Start"] = some (JVal.num start) ∧ b.path ["Date", "End"] = none) ∧
    (∀ r, ((∃ e ∈ (main env args ⟨w, []⟩).2.trace, Event.bundle e = some r) ∨
        (main env args ⟨w, []⟩).1 = .ok (some r)) →
      ∃ root start data b end_,
        (auditStage env ⟨w, []⟩).1 = .ok (some (root, start, data)) ∧
        (processResult env data start root (auditStage env ⟨w, []⟩).2).1 = .ok b ∧
        includes (env.stringify b) "Not Committed Yet" = false ∧
        r = b.set "Date" (JVal.obj [("Start", JVal.num start), ("End", JVal.num end_)]) ∧
        r.path ["Date", "Start"] = some (JVal.num start) ∧
        r.path ["Date", "End"] = some (JVal.num end_)) := by
  refine ⟨?_, ?_⟩
  · intro data start root s b h
    obtain ⟨host, raw, name, deps, url, hash, blm, tree, rfl⟩ :=
      processResult_bundle env data start root s _ h
    exact ⟨rfl, rfl⟩
  · intro r
    have hd1 := auditStage_deliveries env ⟨w, []⟩
    rw [main_eq]
    cases ht : args.token with
    | none =>
      simp only []
      rintro (⟨e, he, hb⟩ | h)
      · simp at he
        rcases he with rfl | rfl <;> simp [Event.bundle] at hb
      · simp at h
    | some tok =>
      simp only []
      revert hd1
      generalize auditStage env ⟨w, []⟩ = st
      rcases st with ⟨_ | _ | ⟨root, start, data⟩, s1⟩
      · intro hd1
        rintro (⟨e, he, hb⟩ | h)
        · simp [bundle_none_of_deliveries hd1 e he] at hb
        · simp at h
      · intro hd1
        rintro (⟨e, he, hb⟩ | h)
        · simp [bundle_none_of_deliveries hd1 e he] at hb
        · simp at h
      · intro hd1
        simp only []
        have hd2 := processResult_deliveries env data start root s1
        have hb2 := processResult_bundle env data start root s1
        revert hd2 hb2
        generalize hpr : processResult env data start root s1 = pr
        rcases pr with ⟨_ | b, s2⟩
        · intro hd2 _
          simp only at hd2
          rw [hd1] at hd2
          rintro (⟨e, he, hb⟩ | h)
          · simp [bundle_none_of_deliveries hd2 e he] at hb
          · simp at h
        · intro hd2 hb2
          simp only at hd2 hb2
          rw [hd1] at hd2
          obtain ⟨host, raw, name, deps, url, hash, blm, tree, hbe⟩ := hb2 b rfl
          by_cases hm : includes (env.stringify b) "Not Committed Yet" = true
          · simp only [hm, if_true]
            rintro (⟨e, he, hb⟩ | h)
            · simp only [List.mem_append, List.mem_singleton] at he
              rcases he with he | rfl
              · simp [bundle_none_of_deliveries hd2 e he] at hb
              · simp [Event.bundle] at hb
            · simp at h
          · have hm' : includes (env.stringify b) "Not Committed Yet" = false := by
              simpa using hm
            simp only [hm', Bool.false_eq_true, if_false]
            have key : ∀ end_ : Int, r = b.set "Date"
                (JVal.obj [("Start", JVal.num start), ("End", JVal.num end_)]) →
                ∃ root' start' data' b' end', (Except.ok (some (root, start, data)) :
                    Except JsError (Option (String × Int × String))) =
                      .ok (some (root', start', data')) ∧
                  (processResult env data' start' root' s1).1 = .ok b' ∧
                  includes (env.stringify b') "Not Committed Yet" = false ∧
                  r = b'.set "Date" (JVal.obj [("Start", JVal.num start'), ("End", JVal.num end')]) ∧
                  r.path ["Date", "Start"] = some (JVal.num start') ∧
                  r.path ["Date", "End"] = some (JVal.num end') := by
              intro end_ hr
              refine ⟨root, start, data, b, end_, rfl, by rw [hpr], hm', hr, ?_, ?_⟩
              · rw [hr, hbe]; rfl
              · rw [hr, hbe]; rfl
            cases ho : args.output_path with
            | none =>
              simp only []
              rintro (⟨e, he, hb⟩ | h)
              · simp only [List.mem_append, List.mem_cons, List.mem_singleton,
                  List.not_mem_nil, or_false] at he
                rcases he with he | rfl | rfl
                · simp [bundle_none_of_deliveries hd2 e he] at hb
                · simp [Event.bundle] at hb
                · simp only [Event.bundle, Option.some.injEq] at hb
                  exact key _ hb.symm
              · simp at h
            | some p =>
              simp only []
              rintro (⟨e, he, hb⟩ | h)
              · simp only [List.mem_append, List.mem_cons, List.mem_singleton,
                  List.not_mem_nil, or_false] at he
                rcases he with he | rfl | rfl
                · simp [bundle_none_of_deliveries hd2 e he] at hb
                · simp [Event.bundle] at hb
                · simp only [Event.bundle, Option.some.injEq] at hb
                  exact key _ hb.symm
              · simp only [Except.ok.injEq, Option.some.injEq] at h
                exact key _ h.symm


set_option maxRecDepth 100000 in
/-- An instance of C9: the bundle that the run of `cleanEnv` saves and returns comes
from a bundle of `processResult` without the marker, and has `Start` and `End`. -/
theorem date_end_after_guard_witness :
    ∃ root start data b end_,
      (auditStage cleanEnv ⟨0, []⟩).1 = .ok (some (root, start, data)) ∧
      (processResult cleanEnv data start root (auditStage cleanEnv ⟨0, []⟩).2).1 = .ok b ∧
      includes (cleanEnv.stringify b) "Not Committed Yet" = false ∧
      (repoBundle JVal.null).set "Date" (JVal.obj [("Start", JVal.num 7), ("End", JVal.num 7)])
        = b.set "Date" (JVal.obj [("Start", JVal.num start), ("End", JVal.num end_)]) ∧
      ((repoBundle JVal.null).set "Date"
        (JVal.obj [("Start", JVal.num 7), ("End", JVal.num 7)])).path ["Date", "Start"]
          = some (JVal.num start) ∧
      ((repoBundle JVal.null).set "Date"
        (JVal.obj [("Start", JVal.num 7), ("End", JVal.num 7)])).path ["Date", "End"]
          = some (JVal.num end_) :=
  (date_end_after_guard cleanEnv (tokenArgs (some "/tmp/out.json")) 0).2 _ (Or.inr rfl)

/-- Replacing the token changes nothing in a trace without deliveries. -/
theorem map_withToken_of_deliveries (x : String) {t : List Event} (h : deliveries t = []) :
    t.map (Event.withToken x) = t := by
  have hb := bundle_none_of_deliveries h
  clear h
  induction t with
  | nil => rfl
  | cons e t ih =>
    have he := hb e (List.mem_cons_self _ _)
    rw [List.map_cons, ih (fun e' he' => hb e' (List.mem_cons_of_mem _ he'))]
    cases e <;> first | rfl | simp [Event.bundle] at he

/-- Replacing the token leaves the console messages as they are. -/
theorem consoleMessages_withToken (x : String) (t : List Event) :
    consoleMessages (t.map (Event.withToken x)) = consoleMessages t := by
  induction t with
  | nil => rfl
  | cons e t ih =>
    cases e <;> simp [consoleMessages, Event.withToken, ih]

/-- Replacing the token leaves the delivered bundles as they are. -/
theorem bundles_withToken (x : String) (t : List Event) :
    (t.map (Event.withToken x)).filterMap Event.bundle = t.filterMap Event.bundle := by
  induction t with
  | nil => rfl
  | cons e t ih =>
    cases e <;> simp [Event.bundle, Event.withToken, List.filterMap_cons, ih]

/-- C10: two runs of `main` from the same world that differ only in the value of the
(present) token return the same value, and the trace of the second is the trace of the
first with the token argument of Transport.sendResult replaced; so the console
messages are the same and the bundles handed to Transport.sendResult and
Files.saveResult are the same: the token value is in no message and in no bundle. -/
theorem token_reaches_only_sendResult {W : Type} (env : Env W)
    (out port host : Option String) (w : W) (t1 t2 : String) :
    (main env (Args.mk (some t2) out port host) ⟨w, []⟩).1 =
      (main env (Args.mk (some t1) out port host) ⟨w, []⟩).1 ∧
    (main env (Args.mk (some t2) out port host) ⟨w, []⟩).2.trace =
      (main env (Args.mk (some t1) out port host) ⟨w, []⟩).2.trace.map (Event.withToken t2) ∧
    consoleMessages (main env (Args.mk (some t2) out port host) ⟨w, []⟩).2.trace =
      consoleMessages (main env (Args.mk (some t1) out port host) ⟨w, []⟩).2.trace ∧
    (main env (Args.mk (some t2) out port host) ⟨w, []⟩).2.trace.filterMap Event.bundle =
      (main env (Args.mk (some t1) out port host) ⟨w, []⟩).2.trace.filterMap Event.bundle := by
  have main_part :
      (main env (Args.mk (some t2) out port host) ⟨w, []⟩).1 =
        (main env (Args.mk (some t1) out port host) ⟨w, []⟩).1 ∧
      (main env (Args.mk (some t2) out port host) ⟨w, []⟩).2.trace =
        (main env (Args.mk (some t1) out port host) ⟨w, []⟩).2.trace.map
          (Event.withToken t2) := by
    have hd1 := auditStage_deliveries env ⟨w, []⟩
    rw [main_eq, main_eq]
    simp only []
    revert hd1
    generalize auditStage env ⟨w, []⟩ = st
    rcases st with ⟨_ | _ | ⟨root, start, data⟩, s1⟩
    · intro hd1
      exact ⟨rfl, (map_withToken_of_deliveries t2 hd1).symm⟩
    · intro hd1
      exact ⟨rfl, (map_withToken_of_deliveries t2 hd1).symm⟩
    · intro hd1
      simp only []
      have hd2 := processResult_deliveries env data start root s1
      revert hd2
      generalize processResult env data start root s1 = pr
      rcases pr with ⟨_ | b, s2⟩
      · intro hd2
        simp only at hd2
        rw [hd1] at hd2
        exact ⟨rfl, (map_withToken_of_deliveries t2 hd2).symm⟩
      · intro hd2
        simp only at hd2
        rw [hd1] at hd2
        have hmap := map_withToken_of_deliveries t2 hd2
        by_cases hm : includes (env.stringify b) "Not Committed Yet" = true
        · simp only [hm, if_true]
          refine ⟨trivial, ?_⟩
          simp [hmap, Event.withToken]
        · have hm' : includes (env.stringify b) "Not Committed Yet" = false := by
            simpa using hm
          simp only [hm', Bool.false_eq_true, if_false]
          cases out with
          | none => simp [hmap, Event.withToken]
          | some p => simp [hmap, Event.withToken]
  refine ⟨main_part.1, main_part.2, ?_, ?_⟩
  · rw [main_part.2, consoleMessages_withToken]
  · rw [main_part.2, bundles_withToken]


/-! ## The two substring tests of `runAudit` and the version check of `main` -/

/-- C7, the code at a failing input: when `ls` prints the one name `package.json.bak`,
no file named `package.json` is listed, yet `runAudit` does not return `null`: it
creates a lock file and returns the output of `npm audit --json`. -/
theorem runAudit_backup_manifest {W : Type} (env : Env W) (root : String) (s : Run W)
    (h : (env.systemSync "ls" (some root) s.world).1 = "package.json.bak\n") :
    "package.json" ∉ listedFiles "package.json.bak\n" ∧
    ∃ out,
      (runAudit env root s).1 = .ok (some out) ∧
      Event.systemSync "npm i --package-lock-only" (some root)
        (env.systemSync "npm i --package-lock-only" (some root)
          (env.systemSync "ls" (some root) s.world).2).1 ∈ (runAudit env root s).2.trace ∧
      Event.systemSync "npm audit --json" (some root) out ∈ (runAudit env root s).2.trace := by
  refine ⟨by decide, ?_⟩
  rw [runAudit_eq]
  simp only [h]
  have h1 : includes "package.json.bak\n" "package.json" = true := by decide
  have h2 : includes "package.json.bak\n" "package-lock.json" = false := by decide
  simp only [h1, h2, if_true, Bool.false_eq_true, if_false]
  exact ⟨_, rfl, by simp, by simp⟩

/-- Witness of the failing input of C7 in the small world. -/
theorem runAudit_backup_manifest_witness :
    "package.json" ∉ listedFiles "package.json.bak\n" ∧
    ∃ out,
      (runAudit (demoEnv "package.json.bak\n" "6.14.4" false JVal.null) "/proj" ⟨0, []⟩).1
        = .ok (some out) ∧
      Event.systemSync "npm i --package-lock-only" (some "/proj")
        ((demoEnv "package.json.bak\n" "6.14.4" false JVal.null).systemSync
          "npm i --package-lock-only" (some "/proj")
          ((demoEnv "package.json.bak\n" "6.14.4" false JVal.null).systemSync "ls"
            (some "/proj") 0).2).1 ∈
        (runAudit (demoEnv "package.json.bak\n" "6.14.4" false JVal.null) "/proj" ⟨0, []⟩).2.trace ∧
      Event.systemSync "npm audit --json" (some "/proj") out ∈
        (runAudit (demoEnv "package.json.bak\n" "6.14.4" false JVal.null) "/proj" ⟨0, []⟩).2.trace :=
  runAudit_backup_manifest (demoEnv "package.json.bak\n" "6.14.4" false JVal.null) "/proj"
    ⟨0, []⟩ rfl

/-- The second test of `runAudit` at a failing input: when `ls` prints `package.json`
and `package-lock.json.orig`, no file named `package-lock.json` is listed, yet no lock
file is created: the only npm command run is `npm audit --json`. -/
theorem runAudit_stale_lock {W : Type} (env : Env W) (root : String) (s : Run W)
    (h : (env.systemSync "ls" (some root) s.world).1 = "package.json\npackage-lock.json.orig\n") :
    "package.json" ∈ listedFiles "package.json\npackage-lock.json.orig\n" ∧
    "package-lock.json" ∉ listedFiles "package.json\npackage-lock.json.orig\n" ∧
    (runAudit env root s).2.trace = s.trace ++
      [Event.systemSync "ls" (some root) "package.json\npackage-lock.json.orig\n",
       Event.systemSync "npm audit --json" (some root)
        (env.systemSync "npm audit --json" (some root)
          (env.systemSync "ls" (some root) s.world).2).1] := by
  refine ⟨by decide, by decide, ?_⟩
  rw [runAudit_eq]
  simp only [h]
  have h1 : includes "package.json\npackage-lock.json.orig\n" "package.json" = true := by decide
  have h2 : includes "package.json\npackage-lock.json.orig\n" "package-lock.json" = true := by
    decide
  simp only [h1, h2, if_true]
  simp

/-- The first call of `runAudit` is the `ls` of the root. -/
theorem runAudit_ls {W : Type} (env : Env W) (root : String) (s : Run W)
    (ra : Except JsError (Option String) × Run W) (h : runAudit env root s = ra) :
    ∃ listing, Event.systemSync "ls" (some root) listing ∈ ra.2.trace := by
  subst h
  rw [runAudit_eq]
  simp only []
  split
  · split <;> simp
  · simp

/-- The trace of `processResult` extends the trace it starts from. -/
theorem processResult_trace {W : Type} (env : Env W) (data : String) (start : Int)
    (root : String) (s : Run W) :
    ∀ e ∈ s.trace, e ∈ (processResult env data start root s).2.trace := by
  intro e he
  rw [processResult_eq]
  cases hp : env.jsonParse data with
  | none => simp [he]
  | some raw =>
    simp only []
    split <;> simp [he]

/-- With the token present, every call of the stage up to the audit is a call of the
run of `main`. -/
theorem main_trace {W : Type} (env : Env W) (args : Args) (s : Run W) (tok : String)
    (htok : args.token = some tok) :
    ∀ e ∈ (auditStage env s).2.trace, e ∈ (main env args s).2.trace := by
  intro e
  rw [main_eq, htok]
  simp only []
  generalize auditStage env s = st
  rcases st with ⟨_ | _ | ⟨root, start, data⟩, s1⟩
  · exact id
  · exact id
  · intro he
    simp only at he ⊢
    have hp := processResult_trace env data start root s1 e he
    revert hp
    generalize processResult env data start root s1 = pr
    rcases pr with ⟨_ | b, s2⟩
    · exact id
    · intro hp
      simp only at hp ⊢
      split
      · simp [hp]
      · cases args.output_path <;> simp [hp]

/-- C6, the code at a failing input: when npm reports version 5.1.0, which is below
5.2.0, and the token is present, the check of line 140 does not fire (the text `51` is
not below 51): `main` goes on to the audit, whose first step is the `ls` of the root,
and never logs that the npm version is too low. -/
theorem main_accepts_npm_5_1_0 {W : Type} (env : Env W) (args : Args) (w : W) (tok : String)
    (htok : args.token = some tok)
    (hver : ∀ root w', (env.get_npm root w').1 = "5.1.0") :
    belowFiveTwo 5 1 0 = true ∧
    versionTooLow env "5.1.0" = false ∧
    ∃ root listing,
      Event.systemSync "ls" (some root) listing ∈ (main env args ⟨w, []⟩).2.trace := by
  have hv : versionTooLow env "5.1.0" = false := rfl
  refine ⟨by decide, hv, ?_⟩
  refine ⟨(env.correctRoot (env.getCWD w).1 (env.getCWD w).2).1, ?_⟩
  have hstage : ∃ listing, Event.systemSync "ls"
      (some (env.correctRoot (env.getCWD w).1 (env.getCWD w).2).1) listing ∈
      (auditStage env ⟨w, []⟩).2.trace := by
    rw [auditStage_eq]
    simp only [hver, hv, Bool.false_eq_true, if_false]
    generalize hra : runAudit env _ _ = ra
    obtain ⟨listing, hl⟩ := runAudit_ls env _ _ ra hra
    rcases ra with ⟨_ | _ | data, s1⟩
    · exact ⟨listing, hl⟩
    · exact ⟨listing, by simp at hl ⊢; exact hl⟩
    · exact ⟨listing, by simp at hl ⊢; exact hl⟩
  obtain ⟨listing, hl⟩ := hstage
  exact ⟨listing, main_trace env args ⟨w, []⟩ tok htok _ hl⟩

/-- Witness of the failing input of C6 in the small world: npm 5.1.0 is let
through. -/
theorem main_accepts_npm_5_1_0_witness :
    belowFiveTwo 5 1 0 = true ∧
    versionTooLow (demoEnv "package.json\n" "5.1.0" false JVal.null) "5.1.0" = false ∧
    ∃ root listing,
      Event.systemSync "ls" (some root) listing ∈
        (main (demoEnv "package.json\n" "5.1.0" false JVal.null) (tokenArgs none) ⟨0, []⟩).2.trace :=
  main_accepts_npm_5_1_0 (demoEnv "package.json\n" "5.1.0" false JVal.null) (tokenArgs none) 0
    "secret" rfl (fun _ _ => rfl)


/-! ## The string functions against their library counterparts -/

/-- The test `includesChars` is the infix relation on lists of characters. -/
theorem includesChars_iff_infix (needle hay : List Char) :
    includesChars needle hay = true ↔ needle <:+: hay := by
  induction hay with
  | nil => simp [includesChars, List.isEmpty_iff]
  | cons c cs ih =>
    simp only [includesChars, Bool.or_eq_true, ih, List.infix_cons_iff,
      List.isPrefixOf_iff_prefix]

/-- Joining the pieces of `splitChars` with the separator gives the text back, and no
piece holds the separator. -/
theorem splitChars_spec (sep : Char) (cs : List Char) :
    List.intercalate [sep] (splitChars sep cs) = cs ∧
    (∀ p ∈ splitChars sep cs, sep ∉ p) ∧ splitChars sep cs ≠ [] := by
  induction cs with
  | nil => simp [splitChars, List.intercalate]
  | cons c cs ih =>
    obtain ⟨h1, h2, h3⟩ := ih
    unfold splitChars
    by_cases hc : c = sep
    · subst hc
      simp only [if_true]
      refine ⟨?_, ?_, by simp⟩
      · cases hs : splitChars c cs with
        | nil => exact absurd hs h3
        | cons p ps =>
          rw [hs] at h1
          simp only [List.intercalate, List.intersperse, List.flatten] at h1 ⊢
          simpa using h1
      · intro p hp
        simp only [List.mem_cons] at hp
        rcases hp with rfl | hp
        · simp
        · exact h2 p hp
    · simp only [hc, if_false]
      cases hs : splitChars sep cs with
      | nil => exact absurd hs h3
      | cons p ps =>
        rw [hs] at h1 h2
        refine ⟨?_, ?_, by simp⟩
        · cases ps with
          | nil =>
            simp only [List.intercalate, List.intersperse, List.flatten] at h1 ⊢
            simpa using h1
          | cons q qs =>
            simp only [List.intercalate, List.intersperse, List.flatten] at h1 ⊢
            simpa using h1
        · intro x hx
          simp only [List.mem_cons] at hx
          rcases hx with rfl | hx
          · intro hmem
            simp only [List.mem_cons] at hmem
            rcases hmem with rfl | hmem
            · exact hc rfl
            · exact h2 p (List.mem_cons_self _ _) hmem
          · exact h2 x (List.mem_cons_of_mem _ hx)

/-- The check of line 140 on some version texts: below 5.2.0 and caught (5.0.9, 4.9.9),
at or above 5.2.0 and let through (5.2.0, 6.14.4, 10.0.0), below 5.2.0 and let through
all the same (5.1.9, 4.10.0, 0.52.0). -/
theorem versionTooLow_examples {W : Type} (env : Env W) :
    versionTooLow env "5.0.9" = true ∧ versionTooLow env "4.9.9" = true ∧
    versionTooLow env "5.2.0" = false ∧ versionTooLow env "6.14.4" = false ∧
    versionTooLow env "10.0.0" = false ∧
    versionTooLow env "5.1.9" = false ∧ versionTooLow env "4.10.0" = false ∧
    versionTooLow env "0.52.0" = false :=
  ⟨rfl, rfl, rfl, rfl, rfl, rfl, rfl, rfl⟩

end NpmPlugin
